import Mathlib

/-!
Verification of the multipass_backend repository's command pipeline:
extraction, normalization, classification, execution dispatch, and the
asynchronous creation lifecycle, shallowly embedded from the Python sources
(`api_server.py`, `api_server1.py`, `proxy_agent.py`, `proxy_agent1.py`).

Strings are modelled as `List Char`; Python string primitives used by the
sources (`str.replace`, `str.strip`, `str.split('\n')`, `str.startswith`,
`shlex.split`, dict insertion order) are given faithful executable models in
the `Util` namespace.
-/

namespace Util

/-- ASCII whitespace as recognized by Python's `str.strip()` and the regex
class `\s` (space, tab, newline, carriage return, vertical tab, form feed). -/
def wsChar (c : Char) : Bool :=
  c = ' ' || c = '\t' || c = '\n' || c = '\r' || c = '\x0b' || c = '\x0c'

/-- The whitespace set of Python's `shlex` lexer (`' \t\r\n'`). -/
def shlexWs (c : Char) : Bool :=
  c = ' ' || c = '\t' || c = '\r' || c = '\n'

/-- ASCII word character, the regex class `\w` (letters, digits, underscore). -/
def wordChar (c : Char) : Bool := c.isAlphanum || c = '_'

/-- `startsWith pat s` : Python `s.startswith(pat)`. -/
def startsWith : List Char → List Char → Bool
  | [], _ => true
  | _ :: _, [] => false
  | p :: ps, c :: cs => p == c && startsWith ps cs

/-- `endsWith pat s` : Python `s.endswith(pat)`. -/
def endsWith (pat s : List Char) : Bool := startsWith pat.reverse s.reverse

/-- `containsSub pat s` : Python `pat in s` (substring occurrence). -/
def containsSub (pat : List Char) : List Char → Bool
  | [] => startsWith pat []
  | c :: cs => startsWith pat (c :: cs) || containsSub pat cs

/-- The segment of `s` strictly before the first occurrence of `pat`
(`none` when `pat` does not occur). -/
def beforeSub (pat : List Char) : List Char → Option (List Char)
  | [] => if startsWith pat [] then some [] else none
  | c :: cs =>
    if startsWith pat (c :: cs) then some []
    else (beforeSub pat cs).map (c :: ·)

/-- Fuelled body of `replaceAll`; every step consumes at least one character
of `s`, so fuel `s.length` always suffices. -/
def replaceAllF (old new : List Char) : Nat → List Char → List Char
  | _, [] => []
  | 0, s => s
  | fuel + 1, c :: cs =>
    if old ≠ [] ∧ startsWith old (c :: cs) = true then
      new ++ replaceAllF old new fuel ((c :: cs).drop old.length)
    else
      c :: replaceAllF old new fuel cs

/-- Python `s.replace(old, new)`: replace every occurrence of `old`, scanning
left to right without overlap.  (The sources never call it with an empty
`old`; for `old = []` this model leaves `s` unchanged.) -/
def replaceAll (old new : List Char) (s : List Char) : List Char :=
  replaceAllF old new s.length s

/-- Left half of Python `str.strip()`. -/
def trimL (s : List Char) : List Char := s.dropWhile wsChar

/-- Right half of Python `str.strip()`. -/
def trimR (s : List Char) : List Char := (s.reverse.dropWhile wsChar).reverse

/-- Python `s.strip()`. -/
def trim (s : List Char) : List Char := trimR (trimL s)

/-- Python `text.split('\n')` (so `splitLines [] = [[]]`, and a trailing
newline produces a final empty line). -/
def splitLines : List Char → List (List Char)
  | [] => [[]]
  | c :: cs =>
    if c = '\n' then [] :: splitLines cs
    else
      match splitLines cs with
      | [] => [[c]]
      | l :: ls => (c :: l) :: ls

/-- Python dict assignment `d[k] = v` on an insertion-ordered association
list: overwrite in place when the key exists, else append. -/
def dictSet (d : List (String × String)) (k v : String) : List (String × String) :=
  match d with
  | [] => [(k, v)]
  | (k0, v0) :: rest => if k0 = k then (k0, v) :: rest else (k0, v0) :: dictSet rest k v

/-- Scan to the closing single quote of `shlex` (no escapes inside single
quotes); returns the quoted content and the remainder, `none` when the
quotation is never closed. -/
def sqScan : List Char → Option (List Char × List Char)
  | [] => none
  | c :: cs =>
    if c = '\'' then some ([], cs)
    else (sqScan cs).map (fun p => (c :: p.1, p.2))

/-- Scan to the closing double quote of posix `shlex`: a backslash escapes
only `"` and `\`; before any other character the backslash is kept. -/
def dqScan : List Char → Option (List Char × List Char)
  | [] => none
  | c :: cs =>
    if c = '"' then some ([], cs)
    else if c = '\\' then
      match cs with
      | [] => none
      | d :: ds =>
        if d = '"' || d = '\\' then (dqScan ds).map (fun p => (d :: p.1, p.2))
        else (dqScan ds).map (fun p => ('\\' :: d :: p.1, p.2))
    else (dqScan cs).map (fun p => (c :: p.1, p.2))

/-- Emit the pending token, if one was started. -/
def flushTok (cur : Option (List Char)) (acc : List (List Char)) : List (List Char) :=
  match cur with
  | none => acc
  | some t => acc ++ [t]

/-- Fuelled main loop of posix `shlex.split`; every step consumes at least
one character, so fuel `length + 1` always suffices. -/
def shlexMain : Nat → List Char → Option (List Char) → List (List Char) →
    Option (List (List Char))
  | 0, _, _, _ => none
  | _ + 1, [], cur, acc => some (flushTok cur acc)
  | fuel + 1, c :: cs, cur, acc =>
    if shlexWs c then shlexMain fuel cs none (flushTok cur acc)
    else if c = '\'' then
      match sqScan cs with
      | none => none
      | some (content, rest) => shlexMain fuel rest (some (cur.getD [] ++ content)) acc
    else if c = '"' then
      match dqScan cs with
      | none => none
      | some (content, rest) => shlexMain fuel rest (some (cur.getD [] ++ content)) acc
    else if c = '\\' then
      match cs with
      | [] => none
      | d :: ds => shlexMain fuel ds (some (cur.getD [] ++ [d])) acc
    else shlexMain fuel cs (some (cur.getD [] ++ [c])) acc

/-- Python `shlex.split(s)` (posix mode): `none` models the `ValueError`
raised on an unbalanced quote or trailing escape. -/
def shlexSplit (s : String) : Option (List String) :=
  (shlexMain (s.toList.length + 1) s.toList none []).map
    (fun ts => ts.map (fun t => String.mk t))

/-- `pat` occurs in `s` as a contiguous substring. -/
def occursIn (pat s : List Char) : Prop := ∃ a b, s = a ++ pat ++ b

end Util


/-! ## `api_server.py` -/

namespace ApiServer

open Util

/-- `normalize_multipass_command` (api_server.py:231-250) on character lists:
rewrite a leading `create` verb to `launch` (Python guards with
`startswith("create")` and replaces the first occurrence, which is then the
prefix), then expand the four short flags via `str.replace`, in the source's
dict insertion order. -/
def normalize_cmd (s : List Char) : List Char :=
  let s1 := if startsWith "create".toList s then "launch".toList ++ s.drop 6 else s
  let s2 := replaceAll " -n ".toList " --name ".toList s1
  let s3 := replaceAll " -m ".toList " --memory ".toList s2
  let s4 := replaceAll " -d ".toList " --disk ".toList s3
  replaceAll " -c ".toList " --cpus ".toList s4

/-- `normalize_multipass_command` on `String`. -/
def normalize_multipass_command (s : String) : String := String.mk (normalize_cmd s.toList)

/-- The closing fence of the triple-backtick markdown patterns. -/
def fenceClose : List Char := ['`', '`', '`']

/-- Attempt of the regex `r"```multipass\s+(.*?)\s*```"` (with `re.DOTALL`) at
one start position: the literal `"```multipass"`, at least one whitespace
character, and a later closing `"```"`.  Returns the raw segment between the
literal and the first subsequent closing fence; the caller strips it, which
makes the result agree with the regex's stripped capture group (the greedy
`\s+`, the lazy `(.*?)` and the greedy `\s*` only move boundary whitespace in
or out of the group). -/
def matchAt1 (s : List Char) : Option (List Char) :=
  if startsWith "```multipass".toList s then
    match s.drop 12 with
    | [] => none
    | r :: rs => if wsChar r then beforeSub fenceClose (r :: rs) else none
  else none

/-- Attempt of `r"```bash\s*multipass\s+(.*?)\s*```"` at one position: after
`"```bash"` the greedy `\s*` must reach `"multipass"` exactly at the end of
the maximal whitespace run (shorter runs would place a whitespace character
where `m` is required). -/
def matchAt2 (s : List Char) : Option (List Char) :=
  if startsWith "```bash".toList s then
    let rest := (s.drop 7).dropWhile wsChar
    if startsWith "multipass".toList rest then
      match rest.drop 9 with
      | [] => none
      | r :: rs => if wsChar r then beforeSub fenceClose (r :: rs) else none
    else none
  else none

/-- Attempt of `r"```\s*multipass\s+(.*?)\s*```"` at one position. -/
def matchAt3 (s : List Char) : Option (List Char) :=
  if startsWith "```".toList s then
    let rest := (s.drop 3).dropWhile wsChar
    if startsWith "multipass".toList rest then
      match rest.drop 9 with
      | [] => none
      | r :: rs => if wsChar r then beforeSub fenceClose (r :: rs) else none
    else none
  else none

/-- Attempt of the inline pattern `` r"`multipass\s+(.*?)`" `` at one
position (single backtick close, no `\s*` before it). -/
def matchAt4 (s : List Char) : Option (List Char) :=
  if startsWith "`multipass".toList s then
    match s.drop 10 with
    | [] => none
    | r :: rs => if wsChar r then beforeSub ['`'] (r :: rs) else none
  else none

/-- `re.search` position scan: try the single-position matcher at every start
position, leftmost first. -/
def scanOpt (f : List Char → Option (List Char)) : List Char → Option (List Char)
  | [] => f []
  | c :: cs =>
    match f (c :: cs) with
    | some r => some r
    | none => scanOpt f cs

/-- Greedy consumption of `(?:\s+--?\w+(?:\s+\S+)?)*` (nothing follows the
star in the pattern, so plain maximal munch agrees with the regex engine);
returns the consumed characters.  Fuelled: each iteration consumes at least
two characters. -/
def starLoop : Nat → List Char → List Char
  | 0, _ => []
  | fuel + 1, s =>
    let ws := s.takeWhile wsChar
    let r1 := s.dropWhile wsChar
    if ws.isEmpty then []
    else
      match r1 with
      | '-' :: r2 =>
        let coreRest : Option (List Char × List Char) :=
          match r2 with
          | '-' :: r3 =>
            let w := r3.takeWhile wordChar
            if w.isEmpty then none
            else some ('-' :: '-' :: w, r3.dropWhile wordChar)
          | _ =>
            let w := r2.takeWhile wordChar
            if w.isEmpty then none else some ('-' :: w, r2.dropWhile wordChar)
        match coreRest with
        | none => []
        | some (core, rest) =>
          let ws2 := rest.takeWhile wsChar
          let r4 := rest.dropWhile wsChar
          let tok := r4.takeWhile (fun c => !wsChar c)
          if !ws2.isEmpty && !tok.isEmpty then
            ws ++ core ++ ws2 ++ tok ++ starLoop fuel (r4.dropWhile (fun c => !wsChar c))
          else
            ws ++ core ++ starLoop fuel rest
      | _ => []

/-- Attempt of the bare scan `r"multipass\s+(\w+(?:\s+--?\w+(?:\s+\S+)?)*)"`
at one start position (group 1 is returned). -/
def simpleMatchAt (s : List Char) : Option (List Char) :=
  if startsWith "multipass".toList s then
    let rest := s.drop 9
    let ws := rest.takeWhile wsChar
    let r2 := rest.dropWhile wsChar
    if ws.isEmpty then none
    else
      let w0 := r2.takeWhile wordChar
      if w0.isEmpty then none
      else some (w0 ++ starLoop r2.length (r2.dropWhile wordChar))
  else none

/-- The per-line cleanup of `extract_multipass_command` (api_server.py:206-210):
strip the line, then strip one layer of matching single or double quotes
(`cleaned_line[1:-1]`). -/
def clean_line (l : List Char) : List Char :=
  let cleaned := trim l
  if (startsWith ['\''] cleaned && endsWith ['\''] cleaned) ||
     (startsWith ['"'] cleaned && endsWith ['"'] cleaned) then
    (cleaned.drop 1).dropLast
  else cleaned

/-- The per-line loop of `extract_multipass_command` (api_server.py:203-215):
return the normalized remainder of the first cleaned line beginning with
`"multipass "`. -/
def lineScan : List (List Char) → Option (List Char)
  | [] => none
  | l :: ls =>
    if startsWith "multipass ".toList (clean_line l) then
      some (normalize_cmd (trim ((clean_line l).drop 10)))
    else
      lineScan ls

/-- `extract_multipass_command` (api_server.py:183-229): the four markdown
patterns in order, then the line scan, then the bare regex scan; each hit is
stripped and normalized; no hit yields `None`. -/
def extract_mp (text : List Char) : Option (List Char) :=
  match scanOpt matchAt1 text with
  | some c => some (normalize_cmd (trim c))
  | none =>
    match scanOpt matchAt2 text with
    | some c => some (normalize_cmd (trim c))
    | none =>
      match scanOpt matchAt3 text with
      | some c => some (normalize_cmd (trim c))
      | none =>
        match scanOpt matchAt4 text with
        | some c => some (normalize_cmd (trim c))
        | none =>
          match lineScan (splitLines text) with
          | some c => some c
          | none =>
            match scanOpt simpleMatchAt text with
            | some c => some (normalize_cmd (trim c))
            | none => none

/-- `extract_multipass_command` on `String`. -/
def extract_multipass_command (text : String) : Option String :=
  (extract_mp text.toList).map String.mk

end ApiServer


namespace ApiServer

open Util

/-- Result dictionary of the non-raising `run_multipass_command`
(api_server.py:98-137): either `{"success": True, "output": ...}` or
`{"error": ...}`. -/
inductive MpRes where
  | ok (output : String)
  | err (msg : String)
deriving DecidableEq

/-- What the spawned process does: run to completion with an exit code and
captured streams, or exceed the timeout. -/
inductive ProcEvent where
  | completes (returncode : Int) (stdout stderr : String)
  | timesOut
deriving DecidableEq

/-- Python truthiness of a string. -/
def strTruthy (s : String) : Bool := s ≠ ""

/-- Outcome classification of `run_multipass_command` (api_server.py:98-137):
a missing binary is reported without spawning; `check=True` turns a non-zero
exit into `CalledProcessError`, reported with the stripped stderr (or the
exception text when stderr is empty); `TimeoutExpired` is reported as
`"Command timed out"`. -/
def run_multipass_command_result (path_exists : Bool) (ev : ProcEvent) : MpRes :=
  if !path_exists then
    .err "Multipass executable not found at path"
  else
    match ev with
    | .timesOut => .err "Command timed out"
    | .completes rc out errTxt =>
      if rc ≠ 0 then
        .err ("Multipass command failed: " ++
          (if strTruthy errTxt then String.mk (trim errTxt.toList) else "CalledProcessError"))
      else .ok out

/-- Default timeout of `run_multipass_command` (api_server.py:98):
`def run_multipass_command(command: list, timeout=300)`. -/
def run_multipass_default_timeout : Nat := 300

/-- Default timeout of `run_multipass_command_old` (api_server.py:139). -/
def run_multipass_old_default_timeout : Nat := 300

/-- Timeout used by the creation call in `async_create_vm_background`
(api_server.py:397): `run_multipass_command(command, 600)`. -/
def async_create_launch_timeout : Nat := 600

/-- Timeout in force for the `list` invocation (api_server.py:443-447 passes
no timeout, so the default applies). -/
def list_vms_timeout : Nat := run_multipass_old_default_timeout

/-- Timeout in force for the follow-up `info` fetch of
`async_create_vm_background` (api_server.py:410 passes no timeout). -/
def info_fetch_timeout : Nat := run_multipass_default_timeout

/-- The name check shared by the creation paths (api_server.py:382, 509):
`vm_name.replace('-', '').replace('_', '').isalnum()`. -/
def valid_vm_name (name : String) : Bool :=
  let stripped := name.toList.filter (fun c => !(c = '-' || c = '_'))
  !stripped.isEmpty && stripped.all Char.isAlphanum

/-- The parameter-scanning `while` loop of the `launch` branch of
`execute_vm_action_direct` (api_server.py:273-289): `--name` takes the next
token as the resource name; other `--key value` pairs are kept only for
`cpus`, `disk`, `memory` (with `disk-size` folded into `disk`); a flag at the
end of the list, and every bare token, just advances the index. -/
def launch_loop (name : Option String) (cfg : List (String × String)) :
    List String → Option String × List (String × String)
  | [] => (name, cfg)
  | a :: rest =>
    if a = "--name" then
      match rest with
      | v :: rest2 => launch_loop (some v) cfg rest2
      | [] => (name, cfg)
    else if startsWith "--".toList a.toList then
      match rest with
      | v :: rest2 =>
        let key := String.mk (a.toList.drop 2)
        if key = "cpus" || key = "disk" || key = "memory" then
          launch_loop name (dictSet cfg key v) rest2
        else if key = "disk-size" then
          launch_loop name (dictSet cfg "disk" v) rest2
        else
          launch_loop name cfg rest2
      | [] => (name, cfg)
    else launch_loop name cfg rest

/-- The action selected by `execute_vm_action_direct` (api_server.py:252-374)
for a classified command: an early rejection (a `success: False` result with
the given message, no binary invocation), an asynchronous launch dispatch, a
direct invocation of the control binary with the given argument list, the
delete-then-purge sequence, or the bare purge. -/
inductive DirectAction where
  | rejected (msg : String)
  | async_launch (vm_name : String) (cfg : List (String × String))
  | invoke (cmd : List String)
  | delete_purge (vm_name : String)
  | purge_only
deriving DecidableEq

/-- Branch dispatch of `execute_vm_action_direct` over the token list that
remains after the optional leading `multipass` token has been removed
(api_server.py:263-369).  `mp_bin` is `os.getenv("MULTIPASS_BIN",
"multipass")`.  Every action outside `launch`/`start`/`stop`/`delete`/`purge`
falls into the final `else` and is forwarded to the binary unchanged. -/
def dispatch_args (mp_bin : String) (args : List String) : DirectAction :=
  match args with
  | [] => .rejected "Geçersiz komut"
  | action :: rest =>
    if action = "launch" then
      match launch_loop none [] rest with
      | (none, _) => .rejected "VM adı belirtilmedi"
      | (some n, cfg) => .async_launch n cfg
    else if action = "start" then
      match rest with
      | [] => .rejected "VM adı belirtilmedi"
      | _ :: _ => .invoke (mp_bin :: action :: rest)
    else if action = "stop" then
      match rest with
      | [] => .rejected "VM adı belirtilmedi"
      | _ :: _ => .invoke (mp_bin :: action :: rest)
    else if action = "delete" then
      match rest with
      | [] => .rejected "VM adı belirtilmedi"
      | v :: _ => .delete_purge v
    else if action = "purge" then .purge_only
    else .invoke (mp_bin :: action :: rest)

/-- `execute_vm_action_direct` (api_server.py:252-374) up to the point where
an external effect would happen: normalize, tokenize with `shlex.split`
(a lexing error is caught by the surrounding `except` and reported as a
failure), drop a leading `multipass` token, reject an empty list, then
dispatch on the first token. -/
def dispatch_direct (mp_bin : String) (command : String) : DirectAction :=
  match shlexSplit (normalize_multipass_command command) with
  | none => .rejected "Komut çalıştırma hatası"
  | some args =>
    let args2 := match args with
      | "multipass" :: rest => rest
      | other => other
    dispatch_args mp_bin args2

/-- Status values of the `vm_creation_status` lifecycle map. -/
inductive VmStatus where
  | creating
  | completed
  | error
deriving DecidableEq

/-- A status is terminal when it is `completed` or `error`. -/
def terminal_status : VmStatus → Bool
  | .creating => false
  | .completed => true
  | .error => true

/-- Last status written in a trace of lifecycle writes (the traces below are
never empty; the default is irrelevant). -/
def last_status : List (VmStatus × String) → VmStatus
  | [] => .creating
  | [x] => x.1
  | _ :: x :: xs => last_status (x :: xs)

/-- The sequence of `vm_creation_status[vm_name]` writes performed by
`async_create_vm_background` (api_server.py:377-435), as a function of the
name, the launch result, the info-fetch result, and whether
`json.loads(info_result["output"])` succeeds (its failure is caught by the
inner `except` and degrades the message, not the status).  Each entry is the
written `(status, message)` pair. -/
def async_create_vm_background_trace (vm_name : String) (launch_res info_res : MpRes)
    (info_parse_ok : Bool) : List (VmStatus × String) :=
  (VmStatus.creating, "'" ++ vm_name ++ "' oluşturuluyor...") ::
  (if !valid_vm_name vm_name then
    [(.error, "VM adı sadece harf, rakam, tire ve alt çizgi içerebilir.")]
  else
    match launch_res with
    | .err e => [(.error, "VM oluşturma hatası: " ++ e)]
    | .ok _ =>
      match info_res with
      | .ok _ =>
        if info_parse_ok then
          [(.completed, "'" ++ vm_name ++ "' başarıyla oluşturuldu!")]
        else
          [(.completed, "'" ++ vm_name ++ "' oluşturuldu ancak detaylar alınamadı.")]
      | .err _ =>
        [(.completed, "'" ++ vm_name ++ "' oluşturuldu ancak detaylar alınamadı.")])

/-- The `launch` command list built by `async_create_vm_background`
(api_server.py:386-394): only `mem`/`memory`/`disk`/`cpus` keys with truthy
values are forwarded, under their long flags. -/
def async_launch_command (mp_bin vm_name : String) (config : List (String × String)) :
    List String :=
  config.foldl
    (fun cmd kv =>
      match List.lookup kv.1 [("mem", "--memory"), ("memory", "--memory"),
          ("disk", "--disk"), ("cpus", "--cpus")] with
      | some flag => if strTruthy kv.2 then cmd ++ [flag, kv.2] else cmd
      | none => cmd)
    [mp_bin, "launch", "--name", vm_name]

/-- The `launch` command list built by the synchronous `create_vm` endpoint
(api_server.py:513-519).  The source's `if key in ['cpus', 'memory', 'disk']`
has an `else` branch with the *same body*, so every config key is appended
verbatim; the dead conditional is kept here as in the source. -/
def create_vm_command (mp_bin vm_name : String) (config : List (String × String)) :
    List String :=
  config.foldl
    (fun cmd kv =>
      if kv.1 = "cpus" || kv.1 = "memory" || kv.1 = "disk" then
        cmd ++ ["--" ++ kv.1, kv.2]
      else
        cmd ++ ["--" ++ kv.1, kv.2])
    [mp_bin, "launch", "--name", vm_name]

/-- The `delete` branch of `execute_vm_action_direct` (api_server.py:331-348):
the commands it hands to the executor and the `(success, message)` it
returns.  After a successful delete it always runs `purge` with no resource
name, ignores `purge_result`, and reports success. -/
def execute_delete_sequence (mp_bin vm_name : String) (delete_res purge_res : MpRes) :
    List (List String) × Bool × String :=
  match delete_res with
  | .err e => ([[mp_bin, "delete", vm_name]], false, e)
  | .ok _ =>
    -- `purge_res` is unused below exactly as `purge_result` is unused in the
    -- source: success is reported whatever the purge outcome was.
    ([[mp_bin, "delete", vm_name], [mp_bin, "purge"]], true,
      "'" ++ vm_name ++ "' silindi ve temizlendi.")

/-- The `/vms/delete/{vm_name}` endpoint (api_server.py:487-492): both calls
go through the raising `run_multipass_command_old`, so a failure of either
the delete or the follow-up purge propagates as an HTTP error instead of the
success response. -/
def delete_vm_endpoint (vm_name : String) (delete_res purge_res : Except String String) :
    List (List String) × Except String (String × String) :=
  match delete_res with
  | .error e => ([["multipass", "delete", vm_name]], .error e)
  | .ok _ =>
    match purge_res with
    | .error e => ([["multipass", "delete", vm_name], ["multipass", "purge"]], .error e)
    | .ok _ => ([["multipass", "delete", vm_name], ["multipass", "purge"]],
        .ok ("silindi", "'" ++ vm_name ++ "' silindi ve temizlendi."))

/-- How the external binary is invoked. -/
inductive Invocation where
  | shell_string (cmd : String)
  | arg_vector (args : List String)
deriving DecidableEq

/-- The quoting rule of api_server.py:108:
`' '.join(f'"{c}"' if ' ' in c else c for c in command)`. -/
def quote_arg (c : String) : String :=
  if containsSub [' '] c.toList then "\"" ++ c ++ "\"" else c

/-- The command actually given to `subprocess.run` by `run_multipass_command`
(api_server.py:107-120): `command[0]` is overwritten with the resolved binary
path, the list is joined into one string with the quoting rule above, and the
string is executed with `shell=True` — a shell-interpreted command line, not
an argument vector. -/
def run_multipass_command_invocation (multipass_path : String) (command : List String) :
    Invocation :=
  .shell_string (String.intercalate " "
    ((match command with
      | [] => []
      | _ :: t => multipass_path :: t).map quote_arg))

end ApiServer


/-! ## `api_server1.py` -/

namespace ApiServer1

/-- The sequence of `vm_creation_status[vm_name]` writes performed by
`async_create_vm` (api_server1.py:68-74): `creating`, then `completed` when
`run_multipass_command` returns, or `error` when it raises (the `except`
catches every exception and stores its text). -/
def async_create_vm_trace (vm_name : String) (launch_res : Except String Unit) :
    List (ApiServer.VmStatus × String) :=
  (ApiServer.VmStatus.creating, "VM \"" ++ vm_name ++ "\" oluşturuluyor...") ::
  match launch_res with
  | .ok _ => [(.completed, "VM \"" ++ vm_name ++ "\" başarıyla oluşturuldu.")]
  | .error e => [(.error, "Oluşturulamadı: " ++ e)]

/-- Timeout passed by `async_create_vm` (api_server1.py:71):
`run_multipass_command(command, timeout=600)`. -/
def async_create_timeout : Nat := 600

end ApiServer1

/-! ## `proxy_agent1.py` -/

namespace ProxyAgent1

open Util

/-- Fuelled body of `cpu_fix`. -/
def cpuFixF : Nat → List Char → List Char
  | _, [] => []
  | 0, s => s
  | fuel + 1, c :: cs =>
    if startsWith "--cpu".toList (c :: cs) &&
        (match (c :: cs).drop 5 with
         | [] => true
         | d :: _ => !wordChar d) then
      "--cpus".toList ++ cpuFixF fuel ((c :: cs).drop 5)
    else
      c :: cpuFixF fuel cs

/-- `re.sub(r"--cpu\b", "--cpus", cmd)` (proxy_agent1.py:92): rewrite every
occurrence of `--cpu` whose following character is not a word character (or
which ends the string). -/
def cpu_fix (s : List Char) : List Char := cpuFixF s.length s

/-- Whether `\s+\d{2}\.\d{2}|\s+jammy|\s+noble` matches here: at least one
whitespace character and, immediately after the maximal whitespace run
(shorter runs would put a whitespace character where a digit or letter is
required), two digits, a dot and two digits, or the literal `jammy`/`noble`. -/
def release_ahead (r : List Char) : Bool :=
  let ws := r.takeWhile wsChar
  let r2 := r.dropWhile wsChar
  !ws.isEmpty &&
    ((match r2 with
      | d1 :: d2 :: dot :: d3 :: d4 :: _ =>
        d1.isDigit && d2.isDigit && dot = '.' && d3.isDigit && d4.isDigit
      | _ => false) ||
     startsWith "jammy".toList r2 || startsWith "noble".toList r2)

/-- proxy_agent1.py:95-97: when `re.match` of
`r"(multipass launch)(?!\s+\d{2}\.\d{2}|\s+jammy|\s+noble)"` succeeds (the
command starts with `multipass launch` and no recognized release follows),
`re.sub(..., count=1)` splices ` 22.04` after the first — here leading —
occurrence of `multipass launch`. -/
def insert_release (s : List Char) : List Char :=
  if startsWith "multipass launch".toList s && !release_ahead (s.drop 16) then
    "multipass launch 22.04".toList ++ s.drop 16
  else s

/-- `multipass_command_fix` (proxy_agent1.py:90-102): fix `--cpu` to
`--cpus`, backfill the default release `22.04` after a bare
`multipass launch`, and rewrite the `ubuntu-XX.04` spellings to their short
form (each `re.sub` is a literal replacement). -/
def multipass_command_fix (cmd : String) : String :=
  let s1 := cpu_fix cmd.toList
  let s2 := insert_release s1
  let s3 := replaceAll "multipass launch ubuntu-22.04".toList
    "multipass launch 22.04".toList s2
  let s4 := replaceAll "multipass launch ubuntu-24.04".toList
    "multipass launch 24.04".toList s3
  let s5 := replaceAll "multipass launch ubuntu-20.04".toList
    "multipass launch 20.04".toList s4
  String.mk s5

/-- The sequence of `vm_status[vm_name]` writes performed by
`async_launch_vm` (proxy_agent1.py:141-155): `creating`, then `completed`
when `execute_multipass_command` reports return code 0, else `error` with
the captured stderr (or `"Bilinmeyen hata"` when stderr is empty). -/
def async_launch_vm_trace (vm_name : String) (returncode : Int) (stderr : String) :
    List (ApiServer.VmStatus × String) :=
  (ApiServer.VmStatus.creating, "VM \"" ++ vm_name ++ "\" oluşturuluyor...") ::
  (if returncode = 0 then
    [(.completed, "VM \"" ++ vm_name ++ "\" başarıyla oluşturuldu.")]
  else
    [(.error, "Oluşturulamadı: " ++ (if stderr = "" then "Bilinmeyen hata" else stderr))])

/-- How `execute_multipass_command` (proxy_agent1.py:157-206) spawns the
binary: `subprocess.run(shlex.split(normalized), shell=False, ...)` — an
argument vector, never a shell string (`none` when `shlex.split` raises,
which the surrounding `except` reports without spawning). -/
def execute_invocation (normalized : String) : Option ApiServer.Invocation :=
  (shlexSplit normalized).map ApiServer.Invocation.arg_vector

end ProxyAgent1

/-! ## `proxy_agent.py` -/

namespace ProxyAgent

open Util

/-- The argument loop of `parse_launch_command` (proxy_agent.py:71-87): a
`--key` followed by a non-flag token records `key ↦ value`; a `--key`
followed by another flag (or nothing) is skipped; the first bare token
becomes `image`, later bare tokens are ignored. -/
def plc_loop (params : List (String × String)) : List String → List (String × String)
  | [] => params
  | [a] =>
    if startsWith "--".toList a.toList then params
    else if (List.lookup "image" params).isNone then dictSet params "image" a
    else params
  | a :: v :: rest2 =>
    if startsWith "--".toList a.toList then
      if startsWith "--".toList v.toList then plc_loop params (v :: rest2)
      else plc_loop (dictSet params (String.mk (a.toList.drop 2)) v) rest2
    else
      if (List.lookup "image" params).isNone then
        plc_loop (dictSet params "image" a) (v :: rest2)
      else plc_loop params (v :: rest2)

/-- `parse_launch_command` (proxy_agent.py:60-97): `None` on a lexing error,
a command not of the form `multipass launch ...` (an out-of-range `args[1]`
raises and is caught), or a parameter set missing the mandatory `name`. -/
def parse_launch_command (command : String) : Option (List (String × String)) :=
  match shlexSplit command with
  | none => none
  | some (a0 :: a1 :: rest) =>
    if a0 = "multipass" && a1 = "launch" then
      let params := plc_loop [] rest
      if (List.lookup "name" params).isSome then some params else none
    else none
  | some _ => none

/-- What `execute_multipass_command` (proxy_agent.py:99-140) decides to do:
reject the command outright, fail to parse a launch, POST a launch request
to the API server, demand a missing machine name, relay to a mapped
endpoint, or report the action as unsupported (no request, no binary). -/
inductive ProxyAction where
  | invalid_command
  | split_error
  | launch_parse_failed
  | launch_request (cfg : List (String × String))
  | name_required (action : String)
  | http_request (method endpoint : String)
  | unsupported (action : String)
deriving DecidableEq

/-- Dispatch of `execute_multipass_command` over the token list
(proxy_agent.py:104-130): fewer than two tokens or a first token other than
`multipass` is invalid; `launch` goes through `parse_launch_command`;
`start`/`stop`/`delete` need `args[2]` as the machine name and map to the
API-server endpoints; every other action is answered with
`"... komutu henüz desteklenmiyor"`. -/
def execute_args (command : String) (args : List String) : ProxyAction :=
  match args with
  | a0 :: a1 :: rest =>
    if a0 ≠ "multipass" then .invalid_command
    else if a1 = "launch" then
      match parse_launch_command command with
      | none => .launch_parse_failed
      | some cfg => .launch_request cfg
    else if a1 = "start" ∨ a1 = "stop" ∨ a1 = "delete" then
      match rest with
      | [] => .name_required a1
      | n :: _ =>
        .http_request (if a1 = "delete" then "delete" else "post")
          ("/vms/" ++ a1 ++ "/" ++ n)
    else .unsupported a1
  | _ => .invalid_command

/-- `execute_multipass_command` (proxy_agent.py:99-140) up to its first
external effect. -/
def execute_multipass_command (command : String) : ProxyAction :=
  match shlexSplit command with
  | none => .split_error
  | some args => execute_args command args

end ProxyAgent

/-! ## The claim C5 strategy order, formalized from the spec's words

The spec (§4.1) and claim C5 describe four strategies tried each over the
whole text: fenced blocks, then quoted whole lines, then plain
`multipass `-led lines, then the bare scan.  These definitions follow the
claim's words (not the source) so the source's extractor can be compared
against them; candidate processing (strip, unquote, normalize) is kept
identical to the source's so that only the *priority between the quoted-line
and plain-line strategies* differs. -/

namespace SpecModel

open Util

/-- Strategy 2 of the claim on one line: quoted whole-line content that,
after unquoting, begins with the binary name. -/
def spec_quoted_line (l : List Char) : Option (List Char) :=
  let cleaned := trim l
  if (startsWith ['\''] cleaned && endsWith ['\''] cleaned) ||
     (startsWith ['"'] cleaned && endsWith ['"'] cleaned) then
    let unq := (cleaned.drop 1).dropLast
    if startsWith "multipass ".toList unq then
      some (ApiServer.normalize_cmd (trim (unq.drop 10)))
    else none
  else none

/-- Strategy 3 of the claim on one line: trimmed content beginning with the
binary-name token. -/
def spec_plain_line (l : List Char) : Option (List Char) :=
  let cleaned := trim l
  if startsWith "multipass ".toList cleaned then
    some (ApiServer.normalize_cmd (trim (cleaned.drop 10)))
  else none

/-- First line (in document order) on which the given strategy fires. -/
def firstSome (f : List Char → Option (List Char)) : List (List Char) → Option (List Char)
  | [] => none
  | l :: ls =>
    match f l with
    | some r => some r
    | none => firstSome f ls

/-- The extractor the claim describes: each strategy exhausted over the whole
text before the next one is tried — in particular every quoted line
anywhere in the text takes priority over every plain line. -/
def spec_priority_extract (text : List Char) : Option (List Char) :=
  match ApiServer.scanOpt ApiServer.matchAt1 text with
  | some c => some (ApiServer.normalize_cmd (trim c))
  | none =>
    match ApiServer.scanOpt ApiServer.matchAt2 text with
    | some c => some (ApiServer.normalize_cmd (trim c))
    | none =>
      match ApiServer.scanOpt ApiServer.matchAt3 text with
      | some c => some (ApiServer.normalize_cmd (trim c))
      | none =>
        match ApiServer.scanOpt ApiServer.matchAt4 text with
        | some c => some (ApiServer.normalize_cmd (trim c))
        | none =>
          match firstSome spec_quoted_line (splitLines text) with
          | some c => some c
          | none =>
            match firstSome spec_plain_line (splitLines text) with
            | some c => some c
            | none =>
              match ApiServer.scanOpt ApiServer.simpleMatchAt text with
              | some c => some (ApiServer.normalize_cmd (trim c))
              | none => none

end SpecModel

section UtilChecks

example : Util.shlexSplit "multipass launch --name demo" =
    some ["multipass", "launch", "--name", "demo"] := by decide

example : Util.shlexSplit "a 'b c' d" = some ["a", "b c", "d"] := by decide

example : Util.shlexSplit "a 'b" = none := by decide

example : Util.trim "  hi there \t".toList = "hi there".toList := by decide

example : Util.splitLines "a\nbc\n".toList = ["a".toList, "bc".toList, [] ] := by decide

example : Util.replaceAll " -m ".toList " --memory ".toList " -m -m ".toList =
    " --memory -m ".toList := by decide

end UtilChecks

section ExtractChecks

example : ApiServer.normalize_multipass_command "multipass launch -n demo -m 2G -c 2" =
    "multipass launch --name demo --memory 2G --cpus 2" := by decide

example : ApiServer.extract_multipass_command "```multipass launch -n x```" =
    some "launch --name x" := by decide

example : ApiServer.extract_multipass_command "run this:\nmultipass list\nplease" =
    some "list" := by decide

example : ApiServer.extract_multipass_command "'multipass stop vm1'" =
    some "stop vm1" := by decide

/- The bare-regex capture stops before a bare (non-flag) token: group 1 of
`r"multipass\s+(\w+(?:\s+--?\w+(?:\s+\S+)?)*)"` is just the verb here. -/
example : ApiServer.extract_multipass_command "use multipass info now" =
    some "info" := by decide

/- ... but flag/value pairs are consumed by the star group. -/
example : ApiServer.extract_multipass_command "try multipass launch --name x --memory 2G ok" =
    some "launch --name x --memory 2G" := by decide

example : ApiServer.extract_multipass_command "nothing to see" = none := by decide

end ExtractChecks

section DispatchChecks

example : ApiServer.dispatch_direct "multipass" "multipass launch -n demo -m 2G -c 2" =
    .async_launch "demo" [("memory", "2G"), ("cpus", "2")] := by decide

example : ApiServer.dispatch_direct "multipass" "multipass start" =
    .rejected "VM adı belirtilmedi" := by decide

example : ApiServer.dispatch_direct "multipass" "multipass frobnicate" =
    .invoke ["multipass", "frobnicate"] := by decide

example : ApiServer.dispatch_direct "multipass" "multipass delete vm1" =
    .delete_purge "vm1" := by decide

example : ApiServer.dispatch_direct "multipass" "list --format json" =
    .invoke ["multipass", "list", "--format", "json"] := by decide

example : ApiServer.async_launch_command "multipass" "demo" [("memory", "2G"), ("cpus", "2")] =
    ["multipass", "launch", "--name", "demo", "--memory", "2G", "--cpus", "2"] := by decide

example : ApiServer.create_vm_command "multipass" "vm1" [("evil", "x")] =
    ["multipass", "launch", "--name", "vm1", "--evil", "x"] := by decide

example : ApiServer.run_multipass_command_invocation "multipass" ["multipass", "start", "my vm"] =
    .shell_string "multipass start \"my vm\"" := by decide

end DispatchChecks

section ModelChecks

example : ProxyAgent1.multipass_command_fix "multipass launch -n demo -m 2G -c 2" =
    "multipass launch 22.04 -n demo -m 2G -c 2" := by decide

example : ProxyAgent1.multipass_command_fix "multipass launch 22.04 --name x" =
    "multipass launch 22.04 --name x" := by decide

example : ProxyAgent1.multipass_command_fix "multipass launch ubuntu-22.04 --name x" =
    "multipass launch 22.04 ubuntu-22.04 --name x" := by decide

example : ProxyAgent1.multipass_command_fix "multipass launch --cpu 2" =
    "multipass launch 22.04 --cpus 2" := by decide

example : ProxyAgent.execute_multipass_command "multipass frobnicate x" =
    .unsupported "frobnicate" := by decide

example : ProxyAgent.execute_multipass_command "multipass list" =
    .unsupported "list" := by decide

example : ProxyAgent.execute_multipass_command "multipass start vm1" =
    .http_request "post" "/vms/start/vm1" := by decide

example : ProxyAgent.execute_multipass_command
    "multipass launch --name new-vm --mem 1G ubuntu" =
    .launch_request [("name", "new-vm"), ("mem", "1G"), ("image", "ubuntu")] := by decide

example : ApiServer.extract_mp "multipass list\n'multipass stop vm1'".toList =
    some "list".toList := by decide

example : SpecModel.spec_priority_extract "multipass list\n'multipass stop vm1'".toList =
    some "stop vm1".toList := by decide

end ModelChecks

/-! ## Lemmas about the string utilities -/

namespace Util

theorem startsWith_iff {pat s : List Char} :
    startsWith pat s = true ↔ ∃ t, s = pat ++ t := by
  induction pat generalizing s with
  | nil =>
    simp only [startsWith, List.nil_append]
    exact ⟨fun _ => ⟨s, rfl⟩, fun _ => trivial⟩
  | cons p ps ih =>
    cases s with
    | nil =>
      simp only [startsWith]
      constructor
      · intro h; cases h
      · rintro ⟨t, ht⟩; cases ht
    | cons c cs =>
      simp only [startsWith, Bool.and_eq_true, beq_iff_eq]
      constructor
      · rintro ⟨rfl, h⟩
        obtain ⟨t, rfl⟩ := ih.mp h
        exact ⟨t, rfl⟩
      · rintro ⟨t, ht⟩
        injection ht with h1 h2
        exact ⟨h1.symm, ih.mpr ⟨t, h2⟩⟩

theorem containsSub_iff {pat s : List Char} :
    containsSub pat s = true ↔ occursIn pat s := by
  induction s with
  | nil =>
    simp only [containsSub]
    rw [startsWith_iff]
    constructor
    · rintro ⟨t, ht⟩; exact ⟨[], t, by simpa using ht⟩
    · rintro ⟨a, b, h⟩
      have h' := h.symm
      rw [List.append_eq_nil, List.append_eq_nil] at h'
      exact ⟨[], by simp [h'.1.2]⟩
  | cons c cs ih =>
    simp only [containsSub, Bool.or_eq_true]
    rw [startsWith_iff, ih]
    constructor
    · rintro (⟨t, ht⟩ | ⟨a, b, hab⟩)
      · exact ⟨[], t, by simpa using ht⟩
      · exact ⟨c :: a, b, by simp [hab]⟩
    · rintro ⟨a, b, hab⟩
      cases a with
      | nil => exact Or.inl ⟨b, by simpa using hab⟩
      | cons a0 as =>
        injection hab with h1 h2
        exact Or.inr ⟨as, b, h2⟩

theorem occursIn_refl (s : List Char) : occursIn s s := ⟨[], [], by simp⟩

theorem occursIn_cons {p s : List Char} (c : Char) (h : occursIn p s) :
    occursIn p (c :: s) := by
  obtain ⟨a, b, rfl⟩ := h
  exact ⟨c :: a, b, rfl⟩

theorem occursIn_trans {p m s : List Char} (h1 : occursIn p m) (h2 : occursIn m s) :
    occursIn p s := by
  obtain ⟨a, b, rfl⟩ := h1
  obtain ⟨c, d, rfl⟩ := h2
  exact ⟨c ++ a, b ++ d, by simp⟩

theorem occursIn_drop (n : Nat) (s : List Char) : occursIn (s.drop n) s :=
  ⟨s.take n, [], by simp⟩

theorem occursIn_dropWhile (f : Char → Bool) (s : List Char) :
    occursIn (s.dropWhile f) s := by
  induction s with
  | nil => exact occursIn_refl []
  | cons c cs ih =>
    rw [List.dropWhile_cons]
    by_cases h : f c = true
    · simpa [h] using occursIn_cons c ih
    · simpa [h] using occursIn_refl (c :: cs)

theorem dropLast_exists : ∀ s : List Char, ∃ t, s = s.dropLast ++ t
  | [] => ⟨[], rfl⟩
  | [a] => ⟨[a], rfl⟩
  | a :: b :: r => by
    obtain ⟨t, h⟩ := dropLast_exists (b :: r)
    exact ⟨t, by rw [List.dropLast_cons₂]; exact congrArg (a :: ·) h⟩

theorem occursIn_dropLast (s : List Char) : occursIn s.dropLast s := by
  obtain ⟨t, h⟩ := dropLast_exists s
  exact ⟨[], t, by simpa using h⟩

theorem dropWhile_exists (f : Char → Bool) : ∀ s : List Char, ∃ a, s = a ++ s.dropWhile f
  | [] => ⟨[], rfl⟩
  | c :: cs => by
    rw [List.dropWhile_cons]
    by_cases h : f c = true
    · obtain ⟨a, ha⟩ := dropWhile_exists f cs
      exact ⟨c :: a, by simp [h, ← ha]⟩
    · exact ⟨[], by simp [h]⟩

theorem occursIn_trimR (s : List Char) : occursIn (trimR s) s := by
  obtain ⟨a, ha⟩ := dropWhile_exists wsChar s.reverse
  refine ⟨[], a.reverse, ?_⟩
  have : s = (s.reverse.dropWhile wsChar).reverse ++ a.reverse := by
    conv_lhs => rw [← List.reverse_reverse s, ha]
    rw [List.reverse_append]
  simpa [trimR] using this

theorem occursIn_trimL (s : List Char) : occursIn (trimL s) s :=
  occursIn_dropWhile wsChar s

theorem occursIn_trim (s : List Char) : occursIn (trim s) s :=
  occursIn_trans (occursIn_trimR (trimL s)) (occursIn_trimL s)

theorem splitLines_spec : ∀ t : List Char, ∃ l0 ls, splitLines t = l0 :: ls ∧
    (∃ b, t = l0 ++ b) ∧ ∀ l ∈ ls, occursIn l t := by
  intro t
  induction t with
  | nil =>
    refine ⟨[], [], rfl, ⟨[], rfl⟩, ?_⟩
    intro l hl
    simp at hl
  | cons c cs ih =>
    obtain ⟨l0, ls, hsp, ⟨b, hb⟩, hls⟩ := ih
    by_cases hc : c = '\n'
    · subst hc
      refine ⟨[], splitLines cs, by simp [splitLines], ⟨'\n' :: cs, rfl⟩, ?_⟩
      intro l hl
      rw [hsp] at hl
      rcases List.mem_cons.mp hl with rfl | hl'
      · exact occursIn_cons _ ⟨[], b, by simpa using hb⟩
      · exact occursIn_cons _ (hls l hl')
    · refine ⟨c :: l0, ls, ?_, ⟨b, by simp [hb]⟩, ?_⟩
      · simp [splitLines, hc, hsp]
      · intro l hl
        exact occursIn_cons c (hls l hl)

theorem splitLines_occursIn {t l : List Char} (h : l ∈ splitLines t) : occursIn l t := by
  obtain ⟨l0, ls, hsp, ⟨b, hb⟩, hls⟩ := splitLines_spec t
  rw [hsp] at h
  rcases List.mem_cons.mp h with rfl | h'
  · exact ⟨[], b, by simpa using hb⟩
  · exact hls l h'

theorem replaceAllF_of_not_contains {old : List Char} (new : List Char) :
    ∀ (fuel : Nat) (s : List Char), containsSub old s = false →
      replaceAllF old new fuel s = s := by
  intro fuel
  induction fuel with
  | zero => intro s _; cases s <;> rfl
  | succ n ih =>
    intro s h
    cases s with
    | nil => rfl
    | cons c cs =>
      simp only [containsSub, Bool.or_eq_false_iff] at h
      have hsw : ¬ (old ≠ [] ∧ startsWith old (c :: cs) = true) := by
        rintro ⟨_, hs⟩
        rw [h.1] at hs
        cases hs
      simp only [replaceAllF, if_neg hsw]
      rw [ih cs h.2]

/-- A string with no occurrence of `old` is left unchanged by `replaceAll`. -/
theorem replaceAll_of_not_contains {old : List Char} (new : List Char) {s : List Char}
    (h : containsSub old s = false) : replaceAll old new s = s :=
  replaceAllF_of_not_contains new s.length s h

end Util

/-! ## Lemmas about the extractor -/

namespace ApiServer

open Util

theorem matchAt1_occurs {s r : List Char} (h : matchAt1 s = some r) :
    occursIn "multipass".toList s := by
  simp [matchAt1] at h
  obtain ⟨t, ht⟩ := startsWith_iff.mp h.1
  exact ⟨"```".toList, t, by rw [ht]; rfl⟩

theorem matchAt2_occurs {s r : List Char} (h : matchAt2 s = some r) :
    occursIn "multipass".toList s := by
  simp [matchAt2] at h
  obtain ⟨t, ht⟩ := startsWith_iff.mp h.2.1
  have o1 : occursIn "multipass".toList ((s.drop 7).dropWhile wsChar) :=
    ⟨[], t, by rw [ht]; rfl⟩
  exact occursIn_trans o1
    (occursIn_trans (occursIn_dropWhile wsChar (s.drop 7)) (occursIn_drop 7 s))

theorem matchAt3_occurs {s r : List Char} (h : matchAt3 s = some r) :
    occursIn "multipass".toList s := by
  simp [matchAt3] at h
  obtain ⟨t, ht⟩ := startsWith_iff.mp h.2.1
  have o1 : occursIn "multipass".toList ((s.drop 3).dropWhile wsChar) :=
    ⟨[], t, by rw [ht]; rfl⟩
  exact occursIn_trans o1
    (occursIn_trans (occursIn_dropWhile wsChar (s.drop 3)) (occursIn_drop 3 s))

theorem matchAt4_occurs {s r : List Char} (h : matchAt4 s = some r) :
    occursIn "multipass".toList s := by
  simp [matchAt4] at h
  obtain ⟨t, ht⟩ := startsWith_iff.mp h.1
  exact ⟨"`".toList, t, by rw [ht]; rfl⟩

theorem simpleMatchAt_occurs {s r : List Char} (h : simpleMatchAt s = some r) :
    occursIn "multipass".toList s := by
  simp [simpleMatchAt] at h
  obtain ⟨t, ht⟩ := startsWith_iff.mp h.1
  exact ⟨[], t, by rw [ht]; rfl⟩

theorem scanOpt_occurs {f : List Char → Option (List Char)}
    (hf : ∀ s' r', f s' = some r' → occursIn "multipass".toList s') :
    ∀ {s r : List Char}, scanOpt f s = some r → occursIn "multipass".toList s := by
  intro s
  induction s with
  | nil => intro r h; exact hf [] r h
  | cons c cs ih =>
    intro r h
    rw [scanOpt] at h
    cases hc : f (c :: cs) with
    | some x => exact hf _ x hc
    | none =>
      rw [hc] at h
      exact occursIn_cons c (ih h)

theorem scanOpt_none {f : List Char → Option (List Char)} {t : List Char}
    (hf : ∀ s' r', f s' = some r' → occursIn "multipass".toList s')
    (h : containsSub "multipass".toList t = false) : scanOpt f t = none := by
  cases hsc : scanOpt f t with
  | none => rfl
  | some r =>
    have := containsSub_iff.mpr (scanOpt_occurs hf hsc)
    rw [h] at this
    cases this

theorem occursIn_clean_line (l : List Char) : occursIn (clean_line l) l := by
  rw [clean_line]
  by_cases hq : ((startsWith ['\''] (trim l) && endsWith ['\''] (trim l)) ||
      (startsWith ['"'] (trim l) && endsWith ['"'] (trim l))) = true
  · simp only [hq, if_true]
    exact occursIn_trans
      (occursIn_trans (occursIn_dropLast ((trim l).drop 1)) (occursIn_drop 1 (trim l)))
      (occursIn_trim l)
  · simp only [hq, if_false]
    exact occursIn_trim l

theorem lineScan_occurs : ∀ {ls : List (List Char)} {r : List Char},
    lineScan ls = some r → ∃ l ∈ ls, occursIn "multipass".toList l := by
  intro ls
  induction ls with
  | nil => intro r h; simp [lineScan] at h
  | cons l ls ih =>
    intro r h
    by_cases hm : startsWith "multipass ".toList (clean_line l) = true
    · refine ⟨l, List.mem_cons_self l ls, ?_⟩
      obtain ⟨t, ht⟩ := startsWith_iff.mp hm
      have : occursIn "multipass".toList (clean_line l) := ⟨[], ' ' :: t, by rw [ht]; rfl⟩
      exact occursIn_trans this (occursIn_clean_line l)
    · rw [lineScan, if_neg hm] at h
      obtain ⟨l', hl', ho⟩ := ih h
      exact ⟨l', List.mem_cons_of_mem l hl', ho⟩

theorem lineScan_none {t : List Char} (h : containsSub "multipass".toList t = false) :
    lineScan (splitLines t) = none := by
  cases hls : lineScan (splitLines t) with
  | none => rfl
  | some r =>
    obtain ⟨l, hl, ho⟩ := lineScan_occurs hls
    have := containsSub_iff.mpr (occursIn_trans ho (splitLines_occursIn hl))
    rw [h] at this
    cases this

end ApiServer

/-- Helper for claim C6: a string that does not begin with `create` and
retains no occurrence of any of the four short-flag patterns is a fixed
point of the normalizer. -/
theorem normalize_cmd_of_fixed {y : List Char}
    (h0 : Util.startsWith "create".toList y = false)
    (h1 : Util.containsSub " -n ".toList y = false)
    (h2 : Util.containsSub " -m ".toList y = false)
    (h3 : Util.containsSub " -d ".toList y = false)
    (h4 : Util.containsSub " -c ".toList y = false) :
    ApiServer.normalize_cmd y = y := by
  show Util.replaceAll " -c ".toList " --cpus ".toList
      (Util.replaceAll " -d ".toList " --disk ".toList
        (Util.replaceAll " -m ".toList " --memory ".toList
          (Util.replaceAll " -n ".toList " --name ".toList
            (if Util.startsWith "create".toList y then "launch".toList ++ y.drop 6
             else y)))) = y
  have hc : ¬ Util.startsWith "create".toList y = true := by
    rw [h0]; exact Bool.false_ne_true
  rw [if_neg hc]
  rw [Util.replaceAll_of_not_contains _ h1, Util.replaceAll_of_not_contains _ h2,
    Util.replaceAll_of_not_contains _ h3, Util.replaceAll_of_not_contains _ h4]

/-! ## The claims -/

/-- Claim C1 (code_bug): the spec's Executor contract demands argument-vector
spawning with no shell, and `proxy_agent1.py` indeed spawns
`shlex.split(normalized)` with `shell=False`; but `api_server.py`'s
`run_multipass_command` — the executor behind every chat-pipeline command —
joins the argument list into a single string (quoting arguments that contain
spaces) and runs it with `shell=True`: every invocation it makes is a
shell-interpreted command line. -/
theorem c1_executor_shell_invocation :
    ApiServer.run_multipass_command_invocation "multipass" ["multipass", "start", "my vm"] =
      .shell_string "multipass start \"my vm\"" ∧
    (∀ (p : String) (cmd : List String), ∃ s,
      ApiServer.run_multipass_command_invocation p cmd = .shell_string s) ∧
    ProxyAgent1.execute_invocation "multipass start vm1" =
      some (.arg_vector ["multipass", "start", "vm1"]) :=
  ⟨by decide, fun _ _ => ⟨_, rfl⟩, by decide⟩

/-- Claim C2 counterexample: classifying `multipass frobnicate` in
`execute_vm_action_direct` does not reject it — the unknown operation falls
into the final `else` branch and is forwarded to the control binary. -/
theorem c2_counterexample :
    ApiServer.dispatch_direct "multipass" "multipass frobnicate" =
      .invoke ["multipass", "frobnicate"] := by decide

/-- Claim C2 (amended): in `api_server.py`'s direct executor, a first token
outside `launch`/`start`/`stop`/`delete`/`purge` is forwarded generically to
the control binary rather than rejected; only `proxy_agent.py`'s executor
rejects an action outside `launch`/`start`/`stop`/`delete` without any
invocation. -/
theorem c2_unsupported_forwarded :
    (∀ (mp_bin action : String) (rest : List String),
      action ∉ ["launch", "start", "stop", "delete", "purge"] →
      ApiServer.dispatch_args mp_bin (action :: rest) =
        .invoke (mp_bin :: action :: rest)) ∧
    (∀ (command a1 : String) (rest : List String),
      a1 ∉ ["launch", "start", "stop", "delete"] →
      ProxyAgent.execute_args command ("multipass" :: a1 :: rest) = .unsupported a1) := by
  constructor
  · intro mp_bin action rest h
    simp only [List.mem_cons, List.mem_singleton, not_or] at h
    obtain ⟨n1, n2, n3, n4, n5⟩ := h
    simp [ApiServer.dispatch_args, n1, n2, n3, n4, n5]
  · intro cmd a1 rest h
    simp only [List.mem_cons, List.mem_singleton, not_or] at h
    obtain ⟨n1, n2, n3, n4⟩ := h
    simp [ProxyAgent.execute_args, n1, n2, n3, n4]

/-- Witness for C2's amended theorem at `frobnicate`. -/
theorem c2_witness :
    ("frobnicate" ∉ ["launch", "start", "stop", "delete", "purge"] ∧
      ApiServer.dispatch_args "multipass" ["frobnicate"] =
        .invoke ["multipass", "frobnicate"]) ∧
    ("frobnicate" ∉ ["launch", "start", "stop", "delete"] ∧
      ProxyAgent.execute_args "multipass frobnicate" ["multipass", "frobnicate"] =
        .unsupported "frobnicate") :=
  ⟨⟨by decide, c2_unsupported_forwarded.1 "multipass" "frobnicate" [] (by decide)⟩,
   ⟨by decide, c2_unsupported_forwarded.2 "multipass frobnicate" "frobnicate" [] (by decide)⟩⟩

/-- Claim C3 (confirmed): every asynchronous creation task, in all three
sources, first writes `creating` for the resource name and ends in a
terminal status (`completed` or `error`) on every control path — including
the path where the launch succeeds but the follow-up `info` fetch or its
JSON parse fails (`async_create_vm_background` then still writes
`completed` with a degraded message). -/
theorem c3_creation_terminal :
    (∀ (n : String) (lr ir : ApiServer.MpRes) (p : Bool),
      (ApiServer.async_create_vm_background_trace n lr ir p).head?.map Prod.fst =
        some ApiServer.VmStatus.creating ∧
      ApiServer.terminal_status
        (ApiServer.last_status (ApiServer.async_create_vm_background_trace n lr ir p)) =
        true) ∧
    (∀ (n : String) (r : Except String Unit),
      (ApiServer1.async_create_vm_trace n r).head?.map Prod.fst =
        some ApiServer.VmStatus.creating ∧
      ApiServer.terminal_status
        (ApiServer.last_status (ApiServer1.async_create_vm_trace n r)) = true) ∧
    (∀ (n : String) (rc : Int) (se : String),
      (ProxyAgent1.async_launch_vm_trace n rc se).head?.map Prod.fst =
        some ApiServer.VmStatus.creating ∧
      ApiServer.terminal_status
        (ApiServer.last_status (ProxyAgent1.async_launch_vm_trace n rc se)) = true) := by
  refine ⟨fun n lr ir p => ?_, fun n r => ?_, fun n rc se => ?_⟩
  · cases hv : ApiServer.valid_vm_name n <;> cases lr <;> cases ir <;> cases p <;>
      simp [ApiServer.async_create_vm_background_trace, ApiServer.last_status,
        ApiServer.terminal_status, hv]
  · cases r <;>
      simp [ApiServer1.async_create_vm_trace, ApiServer.last_status,
        ApiServer.terminal_status]
  · by_cases hrc : rc = 0 <;>
      simp [ProxyAgent1.async_launch_vm_trace, ApiServer.last_status,
        ApiServer.terminal_status, hrc]

/-- Claim C4 counterexample: the pipeline that classifies
`multipass launch -n demo -m 2G -c 2` (api_server.py) inserts no release
token anywhere — neither the normalized string nor the launch argument
vector built for the binary contains `22.04` or any release token. -/
theorem c4_counterexample :
    ApiServer.async_launch_command "multipass" "demo" [("memory", "2G"), ("cpus", "2")] =
      ["multipass", "launch", "--name", "demo", "--memory", "2G", "--cpus", "2"] ∧
    "22.04" ∉
      ApiServer.async_launch_command "multipass" "demo" [("memory", "2G"), ("cpus", "2")] ∧
    Util.containsSub "22.04".toList
      (ApiServer.normalize_multipass_command "multipass launch -n demo -m 2G -c 2").toList =
      false :=
  ⟨by decide, by decide, by decide⟩

/-- Claim C4 (amended): `multipass launch -n demo -m 2G -c 2` normalizes and
classifies (api_server.py) to operation `launch`, resource name `demo` and
parameters `{memory: 2G, cpus: 2}`, but that pipeline inserts no default
release token; the default-release backfill exists only in
`proxy_agent1.py`'s `multipass_command_fix`, which inserts `22.04` without
expanding the short flags. -/
theorem c4_round_trip :
    ApiServer.normalize_multipass_command "multipass launch -n demo -m 2G -c 2" =
      "multipass launch --name demo --memory 2G --cpus 2" ∧
    ApiServer.dispatch_direct "multipass" "multipass launch -n demo -m 2G -c 2" =
      .async_launch "demo" [("memory", "2G"), ("cpus", "2")] ∧
    ProxyAgent1.multipass_command_fix "multipass launch -n demo -m 2G -c 2" =
      "multipass launch 22.04 -n demo -m 2G -c 2" :=
  ⟨by decide, by decide, by decide⟩

/-- Claim C5 counterexample: on `"multipass list\n'multipass stop vm1'"` the
source's extractor returns the plain first line's candidate (`list`), while
the claim's strategy order — every quoted whole line before any plain line —
would return `stop vm1`; the code scans quoted and plain lines together in
document order instead of as two prioritized strategies. -/
theorem c5_counterexample :
    ApiServer.extract_mp "multipass list\n'multipass stop vm1'".toList =
      some "list".toList ∧
    SpecModel.spec_priority_extract "multipass list\n'multipass stop vm1'".toList =
      some "stop vm1".toList ∧
    ApiServer.extract_mp "multipass list\n'multipass stop vm1'".toList ≠
      SpecModel.spec_priority_extract "multipass list\n'multipass stop vm1'".toList :=
  ⟨by decide, by decide, by decide⟩

/-- Claim C5 (amended): extraction tries the four backtick patterns first
(a matching fenced block's stripped inner text is the candidate), then a
single pass over the lines in document order that accepts quote-wrapped
lines and plain `multipass `-led lines alike (no priority between those two
forms), then the bare regex scan, stopping at the first strategy that yields
a candidate; text containing no `multipass` token yields the empty result
`none` rather than an error. -/
theorem c5_extraction_strategy_order :
    (∀ (t c : List Char), ApiServer.scanOpt ApiServer.matchAt1 t = some c →
      ApiServer.extract_mp t = some (ApiServer.normalize_cmd (Util.trim c))) ∧
    (∀ (t c : List Char),
      ApiServer.scanOpt ApiServer.matchAt1 t = none →
      ApiServer.scanOpt ApiServer.matchAt2 t = none →
      ApiServer.scanOpt ApiServer.matchAt3 t = none →
      ApiServer.scanOpt ApiServer.matchAt4 t = none →
      ApiServer.lineScan (Util.splitLines t) = some c →
      ApiServer.extract_mp t = some c) ∧
    (∀ t : List Char,
      ApiServer.scanOpt ApiServer.matchAt1 t = none →
      ApiServer.scanOpt ApiServer.matchAt2 t = none →
      ApiServer.scanOpt ApiServer.matchAt3 t = none →
      ApiServer.scanOpt ApiServer.matchAt4 t = none →
      ApiServer.lineScan (Util.splitLines t) = none →
      ApiServer.extract_mp t =
        (ApiServer.scanOpt ApiServer.simpleMatchAt t).map
          (fun c => ApiServer.normalize_cmd (Util.trim c))) ∧
    (∀ t : List Char, Util.containsSub "multipass".toList t = false →
      ApiServer.extract_mp t = none) := by
  refine ⟨?_, ?_, ?_, ?_⟩
  · intro t c h
    simp [ApiServer.extract_mp, h]
  · intro t c h1 h2 h3 h4 h5
    simp [ApiServer.extract_mp, h1, h2, h3, h4, h5]
  · intro t h1 h2 h3 h4 h5
    cases hs : ApiServer.scanOpt ApiServer.simpleMatchAt t <;>
      simp [ApiServer.extract_mp, h1, h2, h3, h4, h5, hs]
  · intro t h
    have e1 : ApiServer.scanOpt ApiServer.matchAt1 t = none :=
      ApiServer.scanOpt_none (fun _ _ h' => ApiServer.matchAt1_occurs h') h
    have e2 : ApiServer.scanOpt ApiServer.matchAt2 t = none :=
      ApiServer.scanOpt_none (fun _ _ h' => ApiServer.matchAt2_occurs h') h
    have e3 : ApiServer.scanOpt ApiServer.matchAt3 t = none :=
      ApiServer.scanOpt_none (fun _ _ h' => ApiServer.matchAt3_occurs h') h
    have e4 : ApiServer.scanOpt ApiServer.matchAt4 t = none :=
      ApiServer.scanOpt_none (fun _ _ h' => ApiServer.matchAt4_occurs h') h
    have e6 : ApiServer.scanOpt ApiServer.simpleMatchAt t = none :=
      ApiServer.scanOpt_none (fun _ _ h' => ApiServer.simpleMatchAt_occurs h') h
    have e5 : ApiServer.lineScan (Util.splitLines t) = none :=
      ApiServer.lineScan_none h
    simp [ApiServer.extract_mp, e1, e2, e3, e4, e5, e6]

/-- Witness for C5's amended theorem: a fenced block, a plain line, a
bare-scan text and a token-free text. -/
theorem c5_witness :
    (ApiServer.scanOpt ApiServer.matchAt1 "```multipass launch x```".toList =
        some " launch x".toList ∧
      ApiServer.extract_mp "```multipass launch x```".toList =
        some (ApiServer.normalize_cmd (Util.trim " launch x".toList))) ∧
    (ApiServer.lineScan (Util.splitLines "multipass list".toList) = some "list".toList ∧
      ApiServer.extract_mp "multipass list".toList = some "list".toList) ∧
    (ApiServer.lineScan (Util.splitLines "see multipass info now".toList) = none ∧
      ApiServer.extract_mp "see multipass info now".toList =
        (ApiServer.scanOpt ApiServer.simpleMatchAt "see multipass info now".toList).map
          (fun c => ApiServer.normalize_cmd (Util.trim c))) ∧
    (Util.containsSub "multipass".toList "no commands here".toList = false ∧
      ApiServer.extract_mp "no commands here".toList = none) :=
  ⟨⟨by decide, c5_extraction_strategy_order.1 _ _ (by decide)⟩,
   ⟨by decide, c5_extraction_strategy_order.2.1 _ _ (by decide) (by decide) (by decide)
      (by decide) (by decide)⟩,
   ⟨by decide, c5_extraction_strategy_order.2.2.1 _ (by decide) (by decide) (by decide)
      (by decide) (by decide)⟩,
   ⟨by decide, c5_extraction_strategy_order.2.2.2 _ (by decide)⟩⟩

/-- Claim C6 counterexample: the normalizer is not idempotent — on
`" -m -m "` the two occurrences of `" -m "` overlap in one space, the first
pass expands only the first, and a second pass expands the survivor. -/
theorem c6_counterexample :
    ApiServer.normalize_multipass_command " -m -m " = " --memory -m " ∧
    ApiServer.normalize_multipass_command " --memory -m " = " --memory --memory " ∧
    ApiServer.normalize_multipass_command (ApiServer.normalize_multipass_command " -m -m ") ≠
      ApiServer.normalize_multipass_command " -m -m " :=
  ⟨by decide, by decide, by decide⟩

/-- Claim C6 (amended): `normalize` is idempotent on every input whose
normal form neither begins with `create` nor retains an occurrence of any of
the four short-flag patterns — in particular on all fully expanded commands;
it is not idempotent in general (see the counterexample, where overlapping
short-flag occurrences survive the first pass). -/
theorem c6_normalize_idempotent (x : List Char)
    (h0 : Util.startsWith "create".toList (ApiServer.normalize_cmd x) = false)
    (h1 : Util.containsSub " -n ".toList (ApiServer.normalize_cmd x) = false)
    (h2 : Util.containsSub " -m ".toList (ApiServer.normalize_cmd x) = false)
    (h3 : Util.containsSub " -d ".toList (ApiServer.normalize_cmd x) = false)
    (h4 : Util.containsSub " -c ".toList (ApiServer.normalize_cmd x) = false) :
    ApiServer.normalize_cmd (ApiServer.normalize_cmd x) = ApiServer.normalize_cmd x :=
  normalize_cmd_of_fixed h0 h1 h2 h3 h4

/-- Witness for C6's amended theorem at the round-trip example command. -/
theorem c6_witness :
    (Util.startsWith "create".toList
        (ApiServer.normalize_cmd "multipass launch -n demo -m 2G -c 2".toList) = false ∧
      Util.containsSub " -n ".toList
        (ApiServer.normalize_cmd "multipass launch -n demo -m 2G -c 2".toList) = false ∧
      Util.containsSub " -m ".toList
        (ApiServer.normalize_cmd "multipass launch -n demo -m 2G -c 2".toList) = false ∧
      Util.containsSub " -d ".toList
        (ApiServer.normalize_cmd "multipass launch -n demo -m 2G -c 2".toList) = false ∧
      Util.containsSub " -c ".toList
        (ApiServer.normalize_cmd "multipass launch -n demo -m 2G -c 2".toList) = false) ∧
    ApiServer.normalize_cmd
        (ApiServer.normalize_cmd "multipass launch -n demo -m 2G -c 2".toList) =
      ApiServer.normalize_cmd "multipass launch -n demo -m 2G -c 2".toList :=
  ⟨by decide, c6_normalize_idempotent _ (by decide) (by decide) (by decide) (by decide)
    (by decide)⟩

/-- Claim C7 (code_bug): the synchronous `/vms/create` endpoint's command
builder has an `if key in ['cpus', 'memory', 'disk']` whose `else` branch has
the identical body, so an unrecognized key such as `evil` is passed through
verbatim as `--evil x` — contradicting the spec's "unrecognized keys are
dropped, never passed through verbatim".  The asynchronous builder does drop
it (and also drops `image`, which the spec lists as recognized). -/
theorem c7_unrecognized_keys_forwarded :
    ApiServer.create_vm_command "multipass" "vm1" [("evil", "x"), ("memory", "2G")] =
      ["multipass", "launch", "--name", "vm1", "--evil", "x", "--memory", "2G"] ∧
    "--evil" ∈ ApiServer.create_vm_command "multipass" "vm1" [("evil", "x"), ("memory", "2G")] ∧
    ApiServer.async_launch_command "multipass" "vm1" [("evil", "x"), ("memory", "2G")] =
      ["multipass", "launch", "--name", "vm1", "--memory", "2G"] :=
  ⟨by decide, by decide, by decide⟩

/-- Claim C8 counterexample: `recover` and `info` with no resource name are
not rejected with a missing-name error — they fall into the generic `else`
branch of `execute_vm_action_direct` and are forwarded to the binary. -/
theorem c8_counterexample :
    ApiServer.dispatch_direct "multipass" "multipass recover" =
      .invoke ["multipass", "recover"] ∧
    ApiServer.dispatch_direct "multipass" "multipass info" =
      .invoke ["multipass", "info"] :=
  ⟨by decide, by decide⟩

/-- Claim C8 (amended): `launch` (when the scan finds no `--name` value) and
`start`/`stop`/`delete` (when no second token exists) are rejected with
`"VM adı belirtilmedi"` and nothing is invoked; but `recover` and `info` are
never name-checked — without a name they are still forwarded to the binary. -/
theorem c8_missing_name :
    (∀ (mp_bin : String) (rest : List String) (cfg : List (String × String)),
      ApiServer.launch_loop none [] rest = (none, cfg) →
      ApiServer.dispatch_args mp_bin ("launch" :: rest) =
        .rejected "VM adı belirtilmedi") ∧
    (∀ (mp_bin op : String), op ∈ ["start", "stop", "delete"] →
      ApiServer.dispatch_args mp_bin [op] = .rejected "VM adı belirtilmedi") ∧
    (∀ mp_bin : String,
      ApiServer.dispatch_args mp_bin ["recover"] = .invoke [mp_bin, "recover"] ∧
      ApiServer.dispatch_args mp_bin ["info"] = .invoke [mp_bin, "info"]) := by
  refine ⟨?_, ?_, ?_⟩
  · intro mp_bin rest cfg h
    simp [ApiServer.dispatch_args, h]
  · intro mp_bin op hop
    fin_cases hop <;> simp [ApiServer.dispatch_args]
  · intro mp_bin
    exact ⟨by simp [ApiServer.dispatch_args], by simp [ApiServer.dispatch_args]⟩

/-- Witness for C8's amended theorem at `launch` and `start` with no name. -/
theorem c8_witness :
    (ApiServer.launch_loop none [] [] = (none, []) ∧
      ApiServer.dispatch_args "multipass" ["launch"] = .rejected "VM adı belirtilmedi") ∧
    ("start" ∈ ["start", "stop", "delete"] ∧
      ApiServer.dispatch_args "multipass" ["start"] = .rejected "VM adı belirtilmedi") :=
  ⟨⟨by decide, c8_missing_name.1 "multipass" [] [] (by decide)⟩,
   ⟨by decide, c8_missing_name.2.1 "multipass" "start" (by decide)⟩⟩

/-- Claim C9 counterexample: the informational operations run with the
executor's default timeout of 300 seconds (both the `list` endpoint and the
async creation's follow-up `info` fetch pass no timeout), not a short ≈30s
timeout. -/
theorem c9_counterexample :
    ApiServer.list_vms_timeout = 300 ∧
    ApiServer.info_fetch_timeout = 300 ∧
    ¬ ApiServer.list_vms_timeout ≤ 60 :=
  ⟨rfl, rfl, by decide⟩

/-- Claim C9 (amended): the executor's default timeout is 300 seconds and
applies to informational operations (`list`, `info`); creation passes 600
seconds explicitly (in both api_server.py and api_server1.py); a process
exceeding its timeout yields the `"Command timed out"` error outcome. -/
theorem c9_timeouts :
    ApiServer.run_multipass_default_timeout = 300 ∧
    ApiServer.async_create_launch_timeout = 600 ∧
    ApiServer1.async_create_timeout = 600 ∧
    ApiServer.run_multipass_command_result true .timesOut = .err "Command timed out" :=
  ⟨rfl, rfl, rfl, rfl⟩

/-- Claim C10 counterexample: in the `/vms/delete/{vm_name}` endpoint both
calls go through the raising executor, so when the delete succeeds but the
follow-up purge fails the endpoint propagates the purge error instead of
reporting success. -/
theorem c10_counterexample :
    ApiServer.delete_vm_endpoint "vm1" (.ok "") (.error "purge failed") =
      ([["multipass", "delete", "vm1"], ["multipass", "purge"]],
        .error "purge failed") := rfl

/-- Claim C10 (amended): both delete paths additionally invoke the binary's
`purge` operation with no resource name after a successful delete; the chat
pipeline's delete branch reports success regardless of the purge outcome,
while the delete endpoint reports success only when the purge also succeeds
and propagates a purge failure as an error. -/
theorem c10_delete_always_purges :
    (∀ (mp_bin n out : String) (pr : ApiServer.MpRes),
      ApiServer.execute_delete_sequence mp_bin n (.ok out) pr =
        ([[mp_bin, "delete", n], [mp_bin, "purge"]], true,
          "'" ++ n ++ "' silindi ve temizlendi.")) ∧
    (∀ (mp_bin n : String) (rest : List String),
      ApiServer.dispatch_args mp_bin ("delete" :: n :: rest) = .delete_purge n) ∧
    (∀ (n o1 o2 : String),
      ApiServer.delete_vm_endpoint n (.ok o1) (.ok o2) =
        ([["multipass", "delete", n], ["multipass", "purge"]],
          .ok ("silindi", "'" ++ n ++ "' silindi ve temizlendi."))) ∧
    (∀ (n o1 e : String),
      ApiServer.delete_vm_endpoint n (.ok o1) (.error e) =
        ([["multipass", "delete", n], ["multipass", "purge"]], .error e)) := by
  refine ⟨fun _ _ _ _ => rfl, ?_, fun _ _ _ => rfl, fun _ _ _ => rfl⟩
  intro mp_bin n rest
  simp [ApiServer.dispatch_args]
